import Mathlib

/-!
Verification development for the `filetools` repository (Tyrannican/filetools-rs).

The Rust sources are shallowly embedded below:

* `OsStr`, `Component`, `FsPath` model `std::ffi::OsStr` values and
  `std::path::Path` components; an `OsStr` is either valid text or an
  opaque byte sequence that cannot be converted to text (`to_str` fails).
* `FsTree` / `EntryList` model the host filesystem as observed by the
  traversal: a node is a file, a directory whose `read_dir` call fails with
  an OS error code, or a directory whose entry stream yields a sequence of
  successfully retrieved entries and entry-retrieval errors, in native order.
* `iteritems` / `iterEntries` embed the async walker `util::iteritems`;
  `iteritems_sync` / `iterEntries_sync` embed `util::iteritems_sync`.
* The sixteen public listing entry points of `lib.rs` and `sync.rs` are
  embedded with their precondition checks.
* `matches_filter`, `path_contains`, `is_subdir`, `ensure_directory` and the
  `naming` module functions are embedded directly from their sources.

Rust error values are modelled by `FtError`: `precondition` carries the
message of an `anyhow::ensure!` failure, `io` carries an OS error code
(`anyhow` context strings that merely decorate an I/O error are not
modelled), and `panicked` records that the Rust code panicked (an `unwrap`
on `None`); a panic is not a returned `Result` but it is the observable
abort of the call, so it is represented as a distinguished outcome.
-/

namespace Filetools

/-- An operating-system string: either valid unicode text, or an opaque
byte sequence for which `to_str` returns `None`. Equality is byte equality,
as for Rust's `OsStr`. -/
inductive OsStr where
  | text (s : String)
  | bytes (b : List Nat)
deriving DecidableEq

/-- Model of `OsStr::to_str`: `some` exactly when the string is valid text. -/
def OsStr.toStr? : OsStr → Option String
  | .text s => some s
  | .bytes _ => none

/-- One component of a path, as produced by `std::path::Path::components`. -/
inductive Component where
  | rootDir
  | curDir
  | parentDir
  | normal (s : OsStr)
deriving DecidableEq

/-- A filesystem path, represented by its list of name components. `join`
with an entry name appends one component. -/
abbrev FsPath := List OsStr

/-- Text of a path (`Path::to_str`): defined when every component is text,
in which case the components are joined by the separator. -/
def FsPath.toOsStr (p : FsPath) : OsStr :=
  if p.all fun c => match c with | .text _ => true | .bytes _ => false then
    .text (String.intercalate "/" (p.filterMap OsStr.toStr?))
  else
    .bytes []

/-! ## Substring matching

Rust's `str::contains(&str)` is a contiguous-substring test; it is embedded
as an executable check over the character lists of the two strings. -/

/-- Check that `pat` occurs at the start of `hay`. -/
def charsStartWith : List Char → List Char → Bool
  | _, [] => true
  | [], _ :: _ => false
  | h :: hs, p :: ps => decide (h = p) && charsStartWith hs ps

/-- Check that `pat` occurs contiguously anywhere inside `hay`. -/
def charsContain : List Char → List Char → Bool
  | [], pat => charsStartWith [] pat
  | hay@(_ :: rest), pat => charsStartWith hay pat || charsContain rest pat

/-- Model of Rust `str::contains`: `pat` is a contiguous substring of `s`. -/
def strContains (s pat : String) : Bool :=
  charsContain s.data pat.data

/-! ## Path predicates (`lib.rs`) -/

/-- Embedding of `filetools::path_contains` (lib.rs): convert both sides
with `to_str`; on success test substring containment, otherwise `false`. -/
def path_contains (path pattern : OsStr) : Bool :=
  match path.toStr? with
  | some p =>
    match pattern.toStr? with
    | some pat => strContains p pat
    | none => false
  | none => false

/-- Embedding of `filetools::is_subdir` (lib.rs): scan the components of
`path` and return `true` the first time a `Normal` component equals the
candidate's `OsStr`. -/
def is_subdir (path : List Component) (dir : OsStr) : Bool :=
  path.any fun c =>
    match c with
    | Component.normal p => decide (p = dir)
    | _ => false

/-! ## Naming (`naming.rs`) -/

/-- Embedding of `naming::make_extension`: empty extension produces the
empty string, otherwise a dot is prepended. -/
def make_extension (ext : String) : String :=
  if ext.isEmpty then "" else "." ++ ext

/-- Embedding of `naming::generate_name`: the base name followed by the
normalized extension. -/
def generate_name (name ext : String) : String :=
  name ++ make_extension ext

/-- Model of Rust's zero-fill formatting `format!("{:0fill$}", n)`: the
decimal rendering of `n`, preceded by enough zeros to reach width `fill`
(none when the rendering is already at least that wide). -/
def zeroPad (n fill : Nat) : String :=
  String.mk (List.replicate (fill - (Nat.repr n).length) '0' ++ (Nat.repr n).data)

/-- Embedding of `naming::generate_n_digit_name`: the zero-padded number
followed by the normalized extension. -/
def generate_n_digit_name (number fill : Nat) (ext : String) : String :=
  zeroPad number fill ++ make_extension ext

/-! ## Filters (`lib.rs`), filter evaluation (`util.rs`) -/

/-- Embedding of `filetools::FtFilter`. A compiled `regex::Regex` is
abstracted as its matching predicate on text. -/
inductive FtFilter where
  | Raw (s : String)
  | Path (p : OsStr)
  | Regex (re : String → Bool)

/-- Embedding of `util::matches_filter`, applied to the full path of an
entry. `Raw` and `Path` delegate to `path_contains`; `Regex` calls
`to_str().unwrap()` on the path, so a path with no text representation
makes the function panic, modelled by `none`. -/
def matches_filter (item : OsStr) (filter : FtFilter) : Option Bool :=
  match filter with
  | .Raw raw => some (path_contains item (.text raw))
  | .Path filter_path => some (path_contains item filter_path)
  | .Regex re =>
    match item.toStr? with
    | some s => some (re s)
    | none => none

/-- Embedding of `util::FtIterItemState`: which entry kind is collected and
whether the walk recurses. (The `lib.rs` snapshot names these variants
`File`, `RFile`, `Dir`, `RDir`; the defining module `util.rs` names them as
below.) -/
inductive FtIterItemState where
  | FileNoRec
  | FileRec
  | DirNoRec
  | DirRec
deriving DecidableEq

/-- Outcome of a fallible library call. `precondition` carries the message
of a failed `anyhow::ensure!`; `io` carries the OS error code of a failed
filesystem call (decorating `anyhow` context strings are not modelled);
`panicked` records a Rust panic, which aborts the call without returning a
`Result` at all. -/
inductive FtError where
  | precondition (msg : String)
  | io (code : Nat)
  | panicked
deriving DecidableEq

/-- The OS error code produced by calling `read_dir` on a file
(`ENOTDIR`); the specific value never matters, only that it is an I/O
error, not a precondition error. -/
def notADirectoryCode : Nat := 20

/-! ## The filesystem as observed by one traversal

A traversal observes, for each visited path: its metadata kind (file or
directory), whether opening the directory for reading fails, and the
native-order stream of entry results, where each `next_entry` step either
retrieves an entry or reports an I/O error (entry vanished mid-scan,
for instance). -/

mutual
/-- A filesystem node as observed by the traversal: a file, a directory
whose `read_dir` open call fails with an OS error, or a directory whose
entry stream is the given list. -/
inductive FsTree where
  | file : FsTree
  | dirErr (code : Nat) : FsTree
  | dir (entries : EntryList) : FsTree

/-- The native-order stream of results returned by repeated `next_entry`
calls on an open directory: each step yields an entry (name plus observed
node) or an I/O error with an OS error code. -/
inductive EntryList where
  | nil : EntryList
  | consOk (name : OsStr) (node : FsTree) (rest : EntryList) : EntryList
  | consErr (code : Nat) (rest : EntryList) : EntryList
end

/-- Metadata test `Path::is_file` for an observed node. -/
def FsTree.is_file : FsTree → Bool
  | .file => true
  | _ => false

/-- Metadata test `Path::is_dir` for an observed node: a directory whose
read fails later is still a directory to `stat`. -/
def FsTree.is_dir : FsTree → Bool
  | .file => false
  | _ => true

/-- The filter check performed once per entry in both walkers: no filter
defaults to `true`, otherwise `matches_filter` decides; a panic inside
`matches_filter` aborts the walker. -/
def filter_check (e_path : FsPath) (filter : Option FtFilter) : Except FtError Bool :=
  match filter with
  | none => .ok true
  | some f =>
    match matches_filter (FsPath.toOsStr e_path) f with
    | some b => .ok b
    | none => .error .panicked

mutual
/-- Embedding of the async walker `util::iteritems`, called on the node
observed at `p`: `read_dir` fails on a file or an unreadable directory,
otherwise the entry stream is processed in order. -/
def iteritems (p : FsPath) (t : FsTree) (st : FtIterItemState)
    (filter : Option FtFilter) : Except FtError (List FsPath) :=
  match t with
  | .file => .error (.io notADirectoryCode)
  | .dirErr code => .error (.io code)
  | .dir es => iterEntries p es st filter

/-- The entry loop of `util::iteritems`: `next_entry().await?` propagates
an entry-retrieval error immediately; a retrieved entry is classified by
metadata, handled by `processEntry`, and the loop continues. -/
def iterEntries (p : FsPath) (es : EntryList) (st : FtIterItemState)
    (filter : Option FtFilter) : Except FtError (List FsPath) :=
  match es with
  | .nil => .ok []
  | .consErr code _rest => .error (.io code)
  | .consOk name node rest => do
    let filter_pass ← filter_check (p ++ [name]) filter
    let here : List FsPath ←
      match st with
      | .FileNoRec => .ok (if node.is_file && filter_pass then [p ++ [name]] else [])
      | .FileRec =>
        if node.is_file && filter_pass then .ok [p ++ [name]]
        else if node.is_dir then iteritems (p ++ [name]) node .FileRec filter
        else .ok []
      | .DirNoRec => .ok (if node.is_dir && filter_pass then [p ++ [name]] else [])
      | .DirRec =>
        if node.is_dir then
          (iteritems (p ++ [name]) node .DirRec filter).map
            fun sub => (if filter_pass then [p ++ [name]] else []) ++ sub
        else .ok []
    let others ← iterEntries p rest st filter
    .ok (here ++ others)
end

mutual
/-- Embedding of the blocking walker `util::iteritems_sync`, identical to
`iteritems` except for its entry loop. -/
def iteritems_sync (p : FsPath) (t : FsTree) (st : FtIterItemState)
    (filter : Option FtFilter) : Except FtError (List FsPath) :=
  match t with
  | .file => .error (.io notADirectoryCode)
  | .dirErr code => .error (.io code)
  | .dir es => iterEntries_sync p es st filter

/-- The entry loop of `util::iteritems_sync`:
`while let Some(Ok(entry)) = entries.next()` — an entry-retrieval error
fails the pattern, so the loop simply stops and the items accumulated so
far are returned as a success. -/
def iterEntries_sync (p : FsPath) (es : EntryList) (st : FtIterItemState)
    (filter : Option FtFilter) : Except FtError (List FsPath) :=
  match es with
  | .nil => .ok []
  | .consErr _code _rest => .ok []
  | .consOk name node rest => do
    let filter_pass ← filter_check (p ++ [name]) filter
    let here : List FsPath ←
      match st with
      | .FileNoRec => .ok (if node.is_file && filter_pass then [p ++ [name]] else [])
      | .FileRec =>
        if node.is_file && filter_pass then .ok [p ++ [name]]
        else if node.is_dir then iteritems_sync (p ++ [name]) node .FileRec filter
        else .ok []
      | .DirNoRec => .ok (if node.is_dir && filter_pass then [p ++ [name]] else [])
      | .DirRec =>
        if node.is_dir then
          (iteritems_sync (p ++ [name]) node .DirRec filter).map
            fun sub => (if filter_pass then [p ++ [name]] else []) ++ sub
        else .ok []
    let others ← iterEntries_sync p rest st filter
    .ok (here ++ others)
end

/-- The `match iterstate` body shared by both walkers, applied to one
retrieved entry with the async walker for recursion: the items the entry
contributes, in order (the entry itself first when pushed, then the results
of the unconditional recursion in the recursive modes). `iterEntries`
computes exactly this per entry (`processEntry_spec` below). -/
def processEntry (e_path : FsPath) (node : FsTree) (st : FtIterItemState)
    (filter : Option FtFilter) (filter_pass : Bool) : Except FtError (List FsPath) :=
  match st with
  | .FileNoRec => .ok (if node.is_file && filter_pass then [e_path] else [])
  | .FileRec =>
    if node.is_file && filter_pass then .ok [e_path]
    else if node.is_dir then iteritems e_path node .FileRec filter
    else .ok []
  | .DirNoRec => .ok (if node.is_dir && filter_pass then [e_path] else [])
  | .DirRec =>
    if node.is_dir then
      (iteritems e_path node .DirRec filter).map
        fun sub => (if filter_pass then [e_path] else []) ++ sub
    else .ok []

/-- The `match iterstate` body of the blocking walker, recursing through
`iteritems_sync`. -/
def processEntry_sync (e_path : FsPath) (node : FsTree) (st : FtIterItemState)
    (filter : Option FtFilter) (filter_pass : Bool) : Except FtError (List FsPath) :=
  match st with
  | .FileNoRec => .ok (if node.is_file && filter_pass then [e_path] else [])
  | .FileRec =>
    if node.is_file && filter_pass then .ok [e_path]
    else if node.is_dir then iteritems_sync e_path node .FileRec filter
    else .ok []
  | .DirNoRec => .ok (if node.is_dir && filter_pass then [e_path] else [])
  | .DirRec =>
    if node.is_dir then
      (iteritems_sync e_path node .DirRec filter).map
        fun sub => (if filter_pass then [e_path] else []) ++ sub
    else .ok []

mutual
/-- Cut every directory's entry stream at its first entry-retrieval error.
The blocking walker behaves on a tree exactly as the async walker behaves
on the truncated tree. -/
def truncTree : FsTree → FsTree
  | .file => .file
  | .dirErr code => .dirErr code
  | .dir es => .dir (truncEntries es)

/-- Stream truncation at the first entry-retrieval error. -/
def truncEntries : EntryList → EntryList
  | .nil => .nil
  | .consErr _ _ => .nil
  | .consOk name node rest => .consOk name (truncTree node) (truncEntries rest)
end

/-! ## Public listing entry points

Each entry point receives the observation of its root path: `none` when the
path does not exist, `some t` when it exists as node `t`. The
`anyhow::ensure!` precondition checks of the sources are embedded as
`precondition` errors. -/

/-- Message of the existence precondition check. -/
def msgNotExist : String := "path does not exist"

/-- Message of the directory-type precondition check. -/
def msgNotDir : String := "path should be a directory, not a file"

/-- Embedding of async `filetools::list_files` (lib.rs). -/
def list_files (p : FsPath) (root : Option FsTree) : Except FtError (List FsPath) :=
  match root with
  | none => .error (.precondition msgNotExist)
  | some t =>
    if t.is_dir then iteritems p t .FileNoRec none
    else .error (.precondition msgNotDir)

/-- Embedding of async `filetools::list_nested_files` (lib.rs). -/
def list_nested_files (p : FsPath) (root : Option FsTree) : Except FtError (List FsPath) :=
  match root with
  | none => .error (.precondition msgNotExist)
  | some t =>
    if t.is_dir then iteritems p t .FileRec none
    else .error (.precondition msgNotDir)

/-- Embedding of async `filetools::list_files_with_filter` (lib.rs). -/
def list_files_with_filter (p : FsPath) (root : Option FsTree) (pattern : FtFilter) :
    Except FtError (List FsPath) :=
  match root with
  | none => .error (.precondition msgNotExist)
  | some t =>
    if t.is_dir then iteritems p t .FileNoRec (some pattern)
    else .error (.precondition msgNotDir)

/-- Embedding of async `filetools::list_nested_files_with_filter` (lib.rs). -/
def list_nested_files_with_filter (p : FsPath) (root : Option FsTree) (pattern : FtFilter) :
    Except FtError (List FsPath) :=
  match root with
  | none => .error (.precondition msgNotExist)
  | some t =>
    if t.is_dir then iteritems p t .FileRec (some pattern)
    else .error (.precondition msgNotDir)

/-- Embedding of async `filetools::list_directories` (lib.rs). -/
def list_directories (p : FsPath) (root : Option FsTree) : Except FtError (List FsPath) :=
  match root with
  | none => .error (.precondition msgNotExist)
  | some t =>
    if t.is_dir then iteritems p t .DirNoRec none
    else .error (.precondition msgNotDir)

/-- Embedding of async `filetools::list_nested_directories` (lib.rs, lines
497-500): its only precondition check is the existence test — there is no
directory-type `ensure!` in this one function. -/
def list_nested_directories (p : FsPath) (root : Option FsTree) :
    Except FtError (List FsPath) :=
  match root with
  | none => .error (.precondition msgNotExist)
  | some t => iteritems p t .DirRec none

/-- Embedding of async `filetools::list_directories_with_filter` (lib.rs). -/
def list_directories_with_filter (p : FsPath) (root : Option FsTree) (filter : FtFilter) :
    Except FtError (List FsPath) :=
  match root with
  | none => .error (.precondition msgNotExist)
  | some t =>
    if t.is_dir then iteritems p t .DirNoRec (some filter)
    else .error (.precondition msgNotDir)

/-- Embedding of async `filetools::list_nested_directories_with_filter` (lib.rs). -/
def list_nested_directories_with_filter (p : FsPath) (root : Option FsTree) (filter : FtFilter) :
    Except FtError (List FsPath) :=
  match root with
  | none => .error (.precondition msgNotExist)
  | some t =>
    if t.is_dir then iteritems p t .DirRec (some filter)
    else .error (.precondition msgNotDir)

/-- Embedding of `filetools::sync::list_files` (sync.rs). -/
def sync_list_files (p : FsPath) (root : Option FsTree) : Except FtError (List FsPath) :=
  match root with
  | none => .error (.precondition msgNotExist)
  | some t =>
    if t.is_dir then iteritems_sync p t .FileNoRec none
    else .error (.precondition msgNotDir)

/-- Embedding of `filetools::sync::list_nested_files` (sync.rs). -/
def sync_list_nested_files (p : FsPath) (root : Option FsTree) : Except FtError (List FsPath) :=
  match root with
  | none => .error (.precondition msgNotExist)
  | some t =>
    if t.is_dir then iteritems_sync p t .FileRec none
    else .error (.precondition msgNotDir)

/-- Embedding of `filetools::sync::list_files_with_filter` (sync.rs). -/
def sync_list_files_with_filter (p : FsPath) (root : Option FsTree) (filter : FtFilter) :
    Except FtError (List FsPath) :=
  match root with
  | none => .error (.precondition msgNotExist)
  | some t =>
    if t.is_dir then iteritems_sync p t .FileNoRec (some filter)
    else .error (.precondition msgNotDir)

/-- Embedding of `filetools::sync::list_nested_files_with_filter` (sync.rs). -/
def sync_list_nested_files_with_filter (p : FsPath) (root : Option FsTree) (filter : FtFilter) :
    Except FtError (List FsPath) :=
  match root with
  | none => .error (.precondition msgNotExist)
  | some t =>
    if t.is_dir then iteritems_sync p t .FileRec (some filter)
    else .error (.precondition msgNotDir)

/-- Embedding of `filetools::sync::list_directories` (sync.rs). -/
def sync_list_directories (p : FsPath) (root : Option FsTree) : Except FtError (List FsPath) :=
  match root with
  | none => .error (.precondition msgNotExist)
  | some t =>
    if t.is_dir then iteritems_sync p t .DirNoRec none
    else .error (.precondition msgNotDir)

/-- Embedding of `filetools::sync::list_nested_directories` (sync.rs, lines
314-321): unlike its async counterpart, this one keeps the directory-type
precondition check. -/
def sync_list_nested_directories (p : FsPath) (root : Option FsTree) :
    Except FtError (List FsPath) :=
  match root with
  | none => .error (.precondition msgNotExist)
  | some t =>
    if t.is_dir then iteritems_sync p t .DirRec none
    else .error (.precondition msgNotDir)

/-- Embedding of `filetools::sync::list_directories_with_filter` (sync.rs). -/
def sync_list_directories_with_filter (p : FsPath) (root : Option FsTree) (filter : FtFilter) :
    Except FtError (List FsPath) :=
  match root with
  | none => .error (.precondition msgNotExist)
  | some t =>
    if t.is_dir then iteritems_sync p t .DirNoRec (some filter)
    else .error (.precondition msgNotDir)

/-- Embedding of `filetools::sync::list_nested_directories_with_filter` (sync.rs). -/
def sync_list_nested_directories_with_filter (p : FsPath) (root : Option FsTree)
    (filter : FtFilter) : Except FtError (List FsPath) :=
  match root with
  | none => .error (.precondition msgNotExist)
  | some t =>
    if t.is_dir then iteritems_sync p t .DirRec (some filter)
    else .error (.precondition msgNotDir)

/-! ## Directory creation (`ensure_directory`)

`ensure_directory` needs a mutable-filesystem view: a state mapping each
path to its node kind (or nothing), passed and returned explicitly. The
`creatable` oracle records which creations the operating system would
allow (permissions, invalid paths), so creation can fail. -/

/-- Kind of an existing filesystem node. -/
inductive NodeKind where
  | file
  | dir
deriving DecidableEq

/-- A filesystem state for the creation operations: `node` is the metadata
lookup, `creatable` tells whether the OS would allow creating the given
path together with its missing ancestors. -/
structure Fs where
  node : FsPath → Option NodeKind
  creatable : FsPath → Bool

/-- Check that `q` is an initial segment of `p` (so `q` is `p` itself or an
ancestor of `p`). -/
def listLeads : FsPath → FsPath → Bool
  | [], _ => true
  | _ :: _, [] => false
  | a :: as, b :: bs => decide (a = b) && listLeads as bs

/-- Model of `tokio::fs::create_dir_all` / `std::fs::create_dir_all` (a
standard-library call, not repository code): create the directory and all
its missing ancestors, or fail with an I/O error when the OS refuses. -/
def create_dir_all (fs : Fs) (p : FsPath) : Except FtError Fs :=
  if fs.creatable p then
    .ok { fs with node := fun q => if listLeads q p then some .dir else fs.node q }
  else
    .error (.io 13)

/-- Embedding of `filetools::ensure_directory` (lib.rs) and
`filetools::sync::ensure_directory` (sync.rs), whose bodies are identical:
when the path does not exist (a plain existence test, not a
directory-type test), call `create_dir_all`; otherwise do nothing. -/
def ensure_directory (fs : Fs) (p : FsPath) : Except FtError Fs :=
  if (fs.node p).isSome then .ok fs
  else create_dir_all fs p

/-! ## Concrete scenarios

Small observed trees and filesystem states used to evaluate the operations
at specific inputs. -/

/-- A root path for a concrete traversal. -/
def pathC1 : FsPath := [OsStr.text "root"]

/-- A directory whose entry stream retrieves file `a`, then hits an
entry-retrieval error (code 13), with file `b` still behind the error. -/
def treeC1 : FsTree :=
  .dir (.consOk (.text "a") .file (.consErr 13 (.consOk (.text "b") .file .nil)))

/-- Another root path for a concrete traversal. -/
def pathC3 : FsPath := [OsStr.text "base"]

/-- A directory whose entry stream errors immediately (code 7), with a
subdirectory `b` behind the error. -/
def treeC3 : FsTree :=
  .dir (.consErr 7 (.consOk (.text "b") (.dir .nil) .nil))

/-- A directory containing a single file whose name is not valid text. -/
def treeC2 : FsTree :=
  .dir (.consOk (.bytes [255]) .file .nil)

/-- A regex filter that matches every text (the matching predicate is
irrelevant: the panic happens before it is consulted). -/
def regexAny : FtFilter := .Regex fun _ => true

/-- A directory containing a single file `a`. -/
def treeW10 : FsTree := .dir (.consOk (.text "a") .file .nil)

/-- A path to create. -/
def pW : FsPath := [OsStr.text "logs"]

/-- An empty filesystem state in which every creation is allowed. -/
def fsW0 : Fs := { node := fun _ => none, creatable := fun _ => true }

/-- The state after creating `pW` in `fsW0`. -/
def fsW1 : Fs :=
  { node := fun q => if listLeads q pW then some NodeKind.dir else none,
    creatable := fun _ => true }

/-- A filesystem state in which `pW` already exists as a file (and no
creation would be allowed). -/
def fsWF : Fs :=
  { node := fun q => if q = pW then some NodeKind.file else none,
    creatable := fun _ => false }

/-! ## Helper lemmas -/

/-- Truncation does not change what `stat` reports: file stays file. -/
theorem truncTree_is_file (t : FsTree) : (truncTree t).is_file = t.is_file := by
  cases t <;> rfl

/-- Truncation does not change what `stat` reports: directory stays
directory. -/
theorem truncTree_is_dir (t : FsTree) : (truncTree t).is_dir = t.is_dir := by
  cases t <;> rfl

/-- One step of the async entry loop, written compositionally: evaluate the
filter, process the entry with `processEntry`, process the remaining
stream, concatenate. -/
theorem processEntry_spec (p : FsPath) (name : OsStr) (node : FsTree) (rest : EntryList)
    (st : FtIterItemState) (f : Option FtFilter) :
    iterEntries p (.consOk name node rest) st f =
      (filter_check (p ++ [name]) f).bind fun pass =>
        (processEntry (p ++ [name]) node st f pass).bind fun here =>
          (iterEntries p rest st f).bind fun others => .ok (here ++ others) := by
  simp only [iterEntries, processEntry]
  cases filter_check (p ++ [name]) f with
  | error e => rfl
  | ok pass =>
    cases st
    case FileNoRec => rfl
    case DirNoRec => rfl
    case FileRec =>
      show (if _ then _ else _) = Except.bind (if _ then _ else _) _
      split_ifs <;> rfl
    case DirRec =>
      show (if _ then _ else _) = Except.bind (if _ then _ else _) _
      split_ifs <;> rfl

/-- One step of the blocking entry loop, written compositionally. -/
theorem processEntry_sync_spec (p : FsPath) (name : OsStr) (node : FsTree) (rest : EntryList)
    (st : FtIterItemState) (f : Option FtFilter) :
    iterEntries_sync p (.consOk name node rest) st f =
      (filter_check (p ++ [name]) f).bind fun pass =>
        (processEntry_sync (p ++ [name]) node st f pass).bind fun here =>
          (iterEntries_sync p rest st f).bind fun others => .ok (here ++ others) := by
  simp only [iterEntries_sync, processEntry_sync]
  cases filter_check (p ++ [name]) f with
  | error e => rfl
  | ok pass =>
    cases st
    case FileNoRec => rfl
    case DirNoRec => rfl
    case FileRec =>
      show (if _ then _ else _) = Except.bind (if _ then _ else _) _
      split_ifs <;> rfl
    case DirRec =>
      show (if _ then _ else _) = Except.bind (if _ then _ else _) _
      split_ifs <;> rfl

mutual
/-- The blocking walker equals the async walker run on the tree whose entry
streams are truncated at their first entry-retrieval error. -/
theorem iteritems_sync_eq (p : FsPath) (t : FsTree) (st : FtIterItemState)
    (f : Option FtFilter) : iteritems_sync p t st f = iteritems p (truncTree t) st f := by
  cases t with
  | file => rfl
  | dirErr code => rfl
  | dir es =>
    show iterEntries_sync p es st f = iterEntries p (truncEntries es) st f
    exact iterEntries_sync_eq p es st f

/-- Stream-level statement of `iteritems_sync_eq`. -/
theorem iterEntries_sync_eq (p : FsPath) (es : EntryList) (st : FtIterItemState)
    (f : Option FtFilter) : iterEntries_sync p es st f = iterEntries p (truncEntries es) st f := by
  cases es with
  | nil => rfl
  | consErr code rest => rfl
  | consOk name node rest =>
    have h1 := iteritems_sync_eq (p ++ [name]) node .FileRec f
    have h2 := iteritems_sync_eq (p ++ [name]) node .DirRec f
    have h3 := iterEntries_sync_eq p rest st f
    have hpe : ∀ pass, processEntry_sync (p ++ [name]) node st f pass =
        processEntry (p ++ [name]) (truncTree node) st f pass := by
      intro pass
      cases st <;>
        simp [processEntry_sync, processEntry, h1, h2, truncTree_is_file, truncTree_is_dir]
    show iterEntries_sync p (.consOk name node rest) st f =
      iterEntries p (.consOk name (truncTree node) (truncEntries rest)) st f
    rw [processEntry_sync_spec, processEntry_spec]
    simp only [hpe, h3]
end

/-- Characterize a successful `Except.bind` by its two stages. -/
theorem bind_ok_iff {α β : Type} (x : Except FtError α) (g : α → Except FtError β) (b : β) :
    x.bind g = .ok b ↔ ∃ a, x = .ok a ∧ g a = .ok b := by
  cases x <;> simp [Except.bind]

/-- Characterize a successful `Except.map` by its input. -/
theorem map_ok_iff {α β : Type} (x : Except FtError α) (fn : α → β) (b : β) :
    x.map fn = .ok b ↔ ∃ a, x = .ok a ∧ fn a = b := by
  cases x <;> simp [Except.map, eq_comm]

mutual
/-- Every path in a successful async traversal extends the queried root by
a nonempty suffix. -/
theorem iteritems_under_root (p : FsPath) (t : FsTree) (st : FtIterItemState)
    (f : Option FtFilter) (l : List FsPath) (h : iteritems p t st f = .ok l) :
    ∀ q ∈ l, ∃ s, s ≠ [] ∧ q = p ++ s := by
  cases t with
  | file => exact absurd h (by simp [iteritems])
  | dirErr code => exact absurd h (by simp [iteritems])
  | dir es => exact iterEntries_under_root p es st f l (by simpa [iteritems] using h)

/-- Stream-level statement of `iteritems_under_root`. -/
theorem iterEntries_under_root (p : FsPath) (es : EntryList) (st : FtIterItemState)
    (f : Option FtFilter) (l : List FsPath) (h : iterEntries p es st f = .ok l) :
    ∀ q ∈ l, ∃ s, s ≠ [] ∧ q = p ++ s := by
  cases es with
  | nil =>
    simp [iterEntries] at h
    subst h
    intro q hq
    exact absurd hq (by simp)
  | consErr code rest => exact absurd h (by simp [iterEntries])
  | consOk name node rest =>
    rw [processEntry_spec] at h
    obtain ⟨pass, hpass, h⟩ := (bind_ok_iff _ _ _).mp h
    obtain ⟨here, hhere, h⟩ := (bind_ok_iff _ _ _).mp h
    obtain ⟨others, hothers, h⟩ := (bind_ok_iff _ _ _).mp h
    have hl : l = here ++ others := by
      cases h
      rfl
    subst hl
    intro q hq
    rcases List.mem_append.mp hq with hq | hq
    · have hmem : q = p ++ [name] ∨ ∃ s, s ≠ [] ∧ q = (p ++ [name]) ++ s := by
        cases st with
        | FileNoRec =>
          simp only [processEntry] at hhere
          cases hhere
          split at hq
          · simp at hq
            exact Or.inl hq
          · exact absurd hq (by simp)
        | DirNoRec =>
          simp only [processEntry] at hhere
          cases hhere
          split at hq
          · simp at hq
            exact Or.inl hq
          · exact absurd hq (by simp)
        | FileRec =>
          simp only [processEntry] at hhere
          split_ifs at hhere with h1 h2
          · cases hhere
            simp at hq
            exact Or.inl hq
          · exact Or.inr
              (iteritems_under_root (p ++ [name]) node .FileRec f here hhere q hq)
          · cases hhere
            exact absurd hq (by simp)
        | DirRec =>
          simp only [processEntry] at hhere
          cases hd : node.is_dir with
          | false =>
            rw [hd] at hhere
            simp only [Bool.false_eq_true, if_false] at hhere
            cases hhere
            exact absurd hq (by simp)
          | true =>
            rw [hd] at hhere
            simp only [if_true] at hhere
            obtain ⟨sub, hsub, hfn⟩ := (map_ok_iff _ _ _).mp hhere
            subst hfn
            rcases List.mem_append.mp hq with hq | hq
            · split at hq
              · simp at hq
                exact Or.inl hq
              · exact absurd hq (by simp)
            · exact Or.inr
                (iteritems_under_root (p ++ [name]) node .DirRec f sub hsub q hq)
      rcases hmem with hqe | ⟨s, hs, hqs⟩
      · exact ⟨[name], by simp, by simp [hqe]⟩
      · exact ⟨[name] ++ s, by simp, by simp [hqs]⟩
    · exact iterEntries_under_root p rest st f others hothers q hq
end

/-- Every path is an initial segment of itself. -/
theorem listLeads_self (p : FsPath) : listLeads p p = true := by
  induction p with
  | nil => rfl
  | cons a as ih => simp [listLeads, ih]

/-- The extension normalization, phrased on string equality. -/
theorem make_extension_eq (ext : String) :
    make_extension ext = if ext = "" then "" else "." ++ ext := by
  simp [make_extension, String.isEmpty_iff]

/-! ## Claims -/

/-- Claim C1 (evaluation at the failing input): mid-traversal I/O errors do
NOT always abort the operation. On a directory whose entry stream yields
file `a`, then an entry-retrieval error, then file `b`, the sync
`list_files` entry point returns a successful partial listing containing
only `a` — the error is swallowed by `while let Some(Ok(entry))` — while
the async entry point propagates the error as the claim requires. -/
theorem sync_entry_error_partial_result :
    sync_list_files pathC1 (some treeC1) = .ok [[OsStr.text "root", OsStr.text "a"]]
    ∧ list_files pathC1 (some treeC1) = .error (.io 13) :=
  ⟨rfl, rfl⟩

/-- Claim C3 (evaluation at the failing input): the sync and async walkers
do not always return identical results for identical inputs. On a
directory whose entry stream errors immediately, the async walker returns
the I/O error while the blocking walker returns a successful empty
listing. -/
theorem sync_async_divergence_on_entry_error :
    iteritems pathC3 treeC3 .DirNoRec none = .error (.io 7)
    ∧ iteritems_sync pathC3 treeC3 .DirNoRec none = .ok [] :=
  ⟨rfl, rfl⟩

/-- Claim C2, counterexample: evaluating a Regex filter against an entry
path that cannot be converted to text does not degrade to a non-match — it
panics (`to_str().unwrap()` on `None`) and the traversal aborts instead of
continuing: the filtered listing over a directory holding one non-text
entry ends in the panic outcome, and `matches_filter` itself has no
boolean result there. -/
theorem regex_filter_nontext_panics :
    iteritems [] treeC2 .FileNoRec (some regexAny) = .error .panicked
    ∧ matches_filter (OsStr.bytes [255]) regexAny = none :=
  ⟨rfl, rfl⟩

/-- Claim C2, amended: during filtered listing, `Raw` and `Path` filters
reduce to the degrade-to-false `path_contains` test (so a non-text path is
a non-match and traversal continues), but a `Regex` filter panics whenever
the entry path cannot be converted to text, and that panic aborts the
entry loop rather than being treated as a non-match. -/
theorem filter_eval_degrade_and_panic :
    (∀ (item : OsStr) (raw : String),
      matches_filter item (.Raw raw) = some (path_contains item (.text raw)))
    ∧ (∀ (item fp : OsStr),
      matches_filter item (.Path fp) = some (path_contains item fp))
    ∧ (∀ (item : OsStr) (re : String → Bool),
      item.toStr? = none → matches_filter item (.Regex re) = none)
    ∧ (∀ (e_path : FsPath) (f : FtFilter),
      matches_filter (FsPath.toOsStr e_path) f = none →
        filter_check e_path (some f) = .error .panicked)
    ∧ (∀ (p : FsPath) (name : OsStr) (node : FsTree) (rest : EntryList)
        (st : FtIterItemState) (f : Option FtFilter),
      filter_check (p ++ [name]) f = .error .panicked →
        iterEntries p (.consOk name node rest) st f = .error .panicked) := by
  refine ⟨fun _ _ => rfl, fun _ _ => rfl, ?_, ?_, ?_⟩
  · intro item re h
    simp [matches_filter, h]
  · intro e_path f h
    simp [filter_check, h]
  · intro p name node rest st f h
    rw [processEntry_spec, h]
    rfl

/-- Claim C2, witness for the amended theorem: at a concrete non-text
entry, the Regex filter evaluation panics and the entry loop aborts. -/
theorem filter_eval_degrade_and_panic_witness :
    matches_filter (OsStr.bytes [7]) (.Regex fun _ => false) = none
    ∧ filter_check [OsStr.bytes [7]] (some (.Regex fun _ => false)) = .error .panicked
    ∧ iterEntries [] (.consOk (.bytes [7]) .file .nil) .DirNoRec
        (some (.Regex fun _ => false)) = .error .panicked :=
  ⟨filter_eval_degrade_and_panic.2.2.1 _ _ rfl,
   filter_eval_degrade_and_panic.2.2.2.1 _ _ rfl,
   filter_eval_degrade_and_panic.2.2.2.2 [] _ _ _ _ _
     (filter_eval_degrade_and_panic.2.2.2.1 _ _ rfl)⟩

/-- Claim C4: on a root that exists as a file, fifteen of the sixteen
listing entry points fail with the descriptive directory-type precondition
error, before any directory-read I/O; the one exception is the async
`list_nested_directories`, whose precondition is an existence test only,
so the file root passes its checks and the failure surfaces later as the
underlying I/O error of `read_dir`, not as a precondition error. -/
theorem file_root_precondition_results :
    (∀ p, list_files p (some .file) = .error (.precondition msgNotDir))
    ∧ (∀ p, list_nested_files p (some .file) = .error (.precondition msgNotDir))
    ∧ (∀ p f, list_files_with_filter p (some .file) f = .error (.precondition msgNotDir))
    ∧ (∀ p f, list_nested_files_with_filter p (some .file) f = .error (.precondition msgNotDir))
    ∧ (∀ p, list_directories p (some .file) = .error (.precondition msgNotDir))
    ∧ (∀ p f, list_directories_with_filter p (some .file) f = .error (.precondition msgNotDir))
    ∧ (∀ p f, list_nested_directories_with_filter p (some .file) f
        = .error (.precondition msgNotDir))
    ∧ (∀ p, list_nested_directories p (some .file) = .error (.io notADirectoryCode))
    ∧ (∀ p, sync_list_files p (some .file) = .error (.precondition msgNotDir))
    ∧ (∀ p, sync_list_nested_files p (some .file) = .error (.precondition msgNotDir))
    ∧ (∀ p f, sync_list_files_with_filter p (some .file) f = .error (.precondition msgNotDir))
    ∧ (∀ p f, sync_list_nested_files_with_filter p (some .file) f
        = .error (.precondition msgNotDir))
    ∧ (∀ p, sync_list_directories p (some .file) = .error (.precondition msgNotDir))
    ∧ (∀ p f, sync_list_directories_with_filter p (some .file) f
        = .error (.precondition msgNotDir))
    ∧ (∀ p, sync_list_nested_directories p (some .file) = .error (.precondition msgNotDir))
    ∧ (∀ p f, sync_list_nested_directories_with_filter p (some .file) f
        = .error (.precondition msgNotDir)) :=
  ⟨fun _ => rfl, fun _ => rfl, fun _ _ => rfl, fun _ _ => rfl, fun _ => rfl,
   fun _ _ => rfl, fun _ _ => rfl, fun _ => rfl, fun _ => rfl, fun _ => rfl,
   fun _ _ => rfl, fun _ _ => rfl, fun _ => rfl, fun _ _ => rfl, fun _ => rfl,
   fun _ _ => rfl⟩

/-- Claim C5: in Directory-Recursive mode, a directory entry contributes
its own path first (exactly when the filter passes or is absent) and then
the results of an unconditional recursion into it — the recursive call
appears whatever the filter outcome, so filtering controls membership but
never prunes traversal; this holds for both the async and the blocking
walker. -/
theorem dirrec_collect_then_recurse (p : FsPath) (name : OsStr) (node : FsTree)
    (rest : EntryList) (f : Option FtFilter) (h : node.is_dir = true) :
    (iterEntries p (.consOk name node rest) .DirRec f =
      (filter_check (p ++ [name]) f).bind fun pass =>
        (iteritems (p ++ [name]) node .DirRec f).bind fun sub =>
          (iterEntries p rest .DirRec f).bind fun others =>
            .ok (((if pass then [p ++ [name]] else []) ++ sub) ++ others))
    ∧ (iterEntries_sync p (.consOk name node rest) .DirRec f =
      (filter_check (p ++ [name]) f).bind fun pass =>
        (iteritems_sync (p ++ [name]) node .DirRec f).bind fun sub =>
          (iterEntries_sync p rest .DirRec f).bind fun others =>
            .ok (((if pass then [p ++ [name]] else []) ++ sub) ++ others)) := by
  constructor
  · rw [processEntry_spec]
    simp only [processEntry, h, if_true]
    cases filter_check (p ++ [name]) f with
    | error e => rfl
    | ok pass =>
      cases iteritems (p ++ [name]) node .DirRec f with
      | error e => rfl
      | ok sub =>
        cases iterEntries p rest .DirRec f with
        | error e => rfl
        | ok others => rfl
  · rw [processEntry_sync_spec]
    simp only [processEntry_sync, h, if_true]
    cases filter_check (p ++ [name]) f with
    | error e => rfl
    | ok pass =>
      cases iteritems_sync (p ++ [name]) node .DirRec f with
      | error e => rfl
      | ok sub =>
        cases iterEntries_sync p rest .DirRec f with
        | error e => rfl
        | ok others => rfl

/-- Claim C5, witness: the Directory-Recursive step equation at a concrete
directory entry. -/
theorem dirrec_collect_then_recurse_witness :
    iterEntries [] (.consOk (OsStr.text "d") (.dir .nil) .nil) .DirRec none =
      (filter_check ([] ++ [OsStr.text "d"]) none).bind fun pass =>
        (iteritems ([] ++ [OsStr.text "d"]) (.dir .nil) .DirRec none).bind fun sub =>
          (iterEntries [] .nil .DirRec none).bind fun others =>
            .ok (((if pass then [[] ++ [OsStr.text "d"]] else []) ++ sub) ++ others) :=
  (dirrec_collect_then_recurse [] (OsStr.text "d") (.dir .nil) .nil none rfl).1

/-- Claim C6: `is_subdir` returns true exactly when some normal (non-root,
non-parent, non-current) component of the path equals the candidate; in
particular a path whose final leaf component equals the candidate already
satisfies it — the test is component equality, not an ancestor check. -/
theorem is_subdir_component_membership :
    (∀ (path : List Component) (dir : OsStr),
      (is_subdir path dir = true ↔ Component.normal dir ∈ path))
    ∧ (∀ (before : List Component) (dir : OsStr),
      is_subdir (before ++ [Component.normal dir]) dir = true) := by
  have main : ∀ (path : List Component) (dir : OsStr),
      (is_subdir path dir = true ↔ Component.normal dir ∈ path) := by
    intro path dir
    rw [is_subdir, List.any_eq_true]
    constructor
    · rintro ⟨c, hc, hp⟩
      cases c with
      | normal s =>
        simp at hp
        subst hp
        exact hc
      | rootDir => simp at hp
      | curDir => simp at hp
      | parentDir => simp at hp
    · intro h
      exact ⟨Component.normal dir, h, by simp⟩
  exact ⟨main, fun before dir =>
    (main (before ++ [Component.normal dir]) dir).mpr (by simp)⟩

/-- Claim C7: `path_contains` returns true exactly when both arguments
convert to text and the pattern's text is a contiguous substring of the
path's text (so a non-text argument on either side yields false, never an
error); passing raw text is the same as passing a path wrapping that text,
and the documented examples hold. -/
theorem path_contains_substring_iff :
    (∀ (path pattern : OsStr),
      (path_contains path pattern = true ↔
        ∃ s t, path.toStr? = some s ∧ pattern.toStr? = some t ∧ strContains s t = true))
    ∧ (∀ s t : String, path_contains (.text s) (.text t) = strContains s t)
    ∧ path_contains (.text "I/am/a/path") (.text "a/path") = true
    ∧ path_contains (.text "I/am/a/path") (.text "not") = false := by
  refine ⟨?_, fun _ _ => rfl, by decide, by decide⟩
  intro path pattern
  cases path <;> cases pattern <;> simp [path_contains, OsStr.toStr?]

/-- Claim C8: `ensure_directory` is idempotent — after any successful call
the path exists and a second call returns the same state unchanged without
error; and because the guard is a plain existence test, a call on any
already-existing path, even one existing as a non-directory, is a no-op
that returns success. -/
theorem ensure_directory_idempotent :
    (∀ (fs : Fs) (p : FsPath) (fs2 : Fs), ensure_directory fs p = .ok fs2 →
      ((fs2.node p).isSome = true ∧ ensure_directory fs2 p = .ok fs2))
    ∧ (∀ (fs : Fs) (p : FsPath), (fs.node p).isSome = true →
      ensure_directory fs p = .ok fs) := by
  have second : ∀ (fs : Fs) (p : FsPath), (fs.node p).isSome = true →
      ensure_directory fs p = .ok fs := by
    intro fs p h
    simp [ensure_directory, h]
  refine ⟨?_, second⟩
  intro fs p fs2 h
  cases hn : (fs.node p).isSome with
  | true =>
    rw [ensure_directory, if_pos hn] at h
    cases h
    exact ⟨hn, second fs p hn⟩
  | false =>
    rw [ensure_directory, if_neg (by simp [hn])] at h
    rw [create_dir_all] at h
    by_cases hc : fs.creatable p = true
    · rw [if_pos hc] at h
      cases h
      have hp : ((Fs.mk (fun q => if listLeads q p then some NodeKind.dir else fs.node q)
          fs.creatable).node p).isSome = true := by
        simp [listLeads_self]
      exact ⟨hp, second _ p hp⟩
    · rw [if_neg hc] at h
      cases h

/-- Claim C8, witness: creating `logs` in an empty state succeeds, leaves
it present and makes the second call a no-op; and on a state where `logs`
already exists as a file, the call is a no-op success. -/
theorem ensure_directory_idempotent_witness :
    ((fsW1.node pW).isSome = true ∧ ensure_directory fsW1 pW = .ok fsW1)
    ∧ ensure_directory fsWF pW = .ok fsWF :=
  ⟨ensure_directory_idempotent.1 fsW0 pW fsW1 rfl,
   ensure_directory_idempotent.2 fsWF pW rfl⟩

/-- Claim C9: the naming examples hold exactly
(`generate_n_digit_name 5 4 "pdf" = "0005.pdf"`, `55 6 "pdf" =
"000055.pdf"`, `generate_name "test" "pdf" = "test.pdf"`); in general the
number is zero-padded on the left to at least the requested width (more
characters exactly when its decimal rendering needs them), and the dot
separator is emitted only for a non-empty extension. -/
theorem naming_zero_pad_and_extension :
    generate_n_digit_name 5 4 "pdf" = "0005.pdf"
    ∧ generate_n_digit_name 55 6 "pdf" = "000055.pdf"
    ∧ generate_name "test" "pdf" = "test.pdf"
    ∧ (∀ n fill : Nat, fill ≤ (zeroPad n fill).length
        ∧ (zeroPad n fill).length = max fill (Nat.repr n).length
        ∧ ∃ zs, (∀ c ∈ zs, c = '0') ∧ (zeroPad n fill).data = zs ++ (Nat.repr n).data)
    ∧ (∀ base ext : String,
        generate_name base ext = base ++ (if ext = "" then "" else "." ++ ext))
    ∧ (∀ (n fill : Nat) (ext : String),
        generate_n_digit_name n fill ext =
          zeroPad n fill ++ (if ext = "" then "" else "." ++ ext)) := by
  refine ⟨by decide, by decide, rfl, ?_, ?_, ?_⟩
  · intro n fill
    refine ⟨?_, ?_, List.replicate (fill - (Nat.repr n).length) '0', ?_, ?_⟩
    · show fill ≤ (List.replicate (fill - (Nat.repr n).length) '0' ++ (Nat.repr n).data).length
      simp only [List.length_append, List.length_replicate]
      have : (Nat.repr n).length = (Nat.repr n).data.length := rfl
      omega
    · show (List.replicate (fill - (Nat.repr n).length) '0' ++ (Nat.repr n).data).length
        = max fill (Nat.repr n).length
      simp only [List.length_append, List.length_replicate]
      have : (Nat.repr n).length = (Nat.repr n).data.length := rfl
      omega
    · intro c hc
      exact List.eq_of_mem_replicate hc
    · rfl
  · intro base ext
    rw [generate_name, make_extension_eq]
  · intro n fill ext
    rw [generate_n_digit_name, make_extension_eq]

/-- Claim C10: every path in a successful traversal result, async or
blocking, in every mode and under every filter, lies strictly under the
queried root: it is the root extended by a nonempty component suffix,
because each result is formed by joining the root or an already-extended
directory path with an entry name. -/
theorem listing_results_under_root :
    (∀ (p : FsPath) (t : FsTree) (st : FtIterItemState) (f : Option FtFilter)
      (l : List FsPath), iteritems p t st f = .ok l →
        ∀ q ∈ l, ∃ s, s ≠ [] ∧ q = p ++ s)
    ∧ (∀ (p : FsPath) (t : FsTree) (st : FtIterItemState) (f : Option FtFilter)
      (l : List FsPath), iteritems_sync p t st f = .ok l →
        ∀ q ∈ l, ∃ s, s ≠ [] ∧ q = p ++ s) :=
  ⟨iteritems_under_root, fun p t st f l h =>
    iteritems_under_root p (truncTree t) st f l (by rw [← iteritems_sync_eq]; exact h)⟩

/-- Claim C10, witness: listing the root `r` containing file `a` yields
`r/a`, which strictly extends the root. -/
theorem listing_results_under_root_witness :
    ∃ s, s ≠ [] ∧ [OsStr.text "r", OsStr.text "a"] = [OsStr.text "r"] ++ s :=
  listing_results_under_root.1 [OsStr.text "r"] treeW10 .FileNoRec none
    [[OsStr.text "r", OsStr.text "a"]] rfl [OsStr.text "r", OsStr.text "a"] (by simp)

end Filetools
